import Mathlib

set_option maxRecDepth 4000

/-!
Shallow embedding of `src/app.js` (fetchserver): an Express REST façade over
MongoDB.  JSON/BSON values are modelled by `Value` (numbers as rationals),
documents as association lists from field name to value, and the database as
an association list from collection name to list of documents.  The Express
routing table, the `collectionName` param middleware and every route handler
registered in `app.js` are translated below, together with the store
operations (`insertOne`, `findOne`, `updateOne` with `$set`, `deleteOne`,
`find` with `sort`/`limit`) they invoke.
-/

/-- Scalar JSON values (array elements below are scalars; nested arrays and
objects occur in no property of this development). -/
inductive Prim : Type where
  | null : Prim
  | bool (b : Bool) : Prim
  | num (q : Rat) : Prim
  | str (s : String) : Prim
deriving DecidableEq

/-- JSON/BSON values stored in documents.  Numbers are modelled as rationals;
nested objects do not occur in any property below and are omitted. -/
inductive Value : Type where
  | null : Value
  | bool (b : Bool) : Value
  | num (q : Rat) : Value
  | str (s : String) : Value
  | arr (vs : List Prim) : Value
deriving DecidableEq

abbrev Doc := List (String × Value)

abbrev Db := List (String × List Doc)

/-- Field lookup on a document (JS property read: first binding wins; parsed
JSON bodies have unique keys). -/
def getField (d : Doc) (k : String) : Option Value :=
  d.lookup k

/-- JavaScript truthiness of a field read: `undefined`, `null`, `""`, `0` and
`false` are falsy, everything else (including `[]`) is truthy. -/
def truthy : Option Value → Bool
  | none => false
  | some .null => false
  | some (.bool b) => b
  | some (.num q) => decide (q ≠ 0)
  | some (.str s) => decide (s ≠ "")
  | some (.arr _) => true

/-- Models `Array.isArray` applied to a field read. -/
def isArray : Option Value → Bool
  | some (.arr _) => true
  | _ => false

/-- Set one field of a document: overwrite the first binding when the key is
present, append it otherwise. -/
def setField : Doc → String → Value → Doc
  | [], k, v => [(k, v)]
  | p :: t, k, v => if p.1 == k then (p.1, v) :: t else p :: setField t k v

/-- Mongo `$set` with the request body: each field present in the body is set
on the document, in body order. -/
def applySet (d : Doc) (body : Doc) : Doc :=
  body.foldl (fun acc p => setField acc p.1 p.2) d

/-- Collection lookup (`db.collection(name)` followed by reads): a collection
that was never written is empty. -/
def getColl (db : Db) (name : String) : List Doc :=
  (db.lookup name).getD []

/-- Replace (or create) the named collection. -/
def setColl : Db → String → List Doc → Db
  | [], name, docs => [(name, docs)]
  | p :: t, name, docs =>
    if p.1 == name then (p.1, docs) :: t else p :: setColl t name docs

def isHexChar (c : Char) : Bool :=
  c.isDigit || (('a' ≤ c) && (c ≤ 'f')) || (('A' ≤ c) && (c ≤ 'F'))

/-- Lower-case a string character by character. -/
def strToLower (s : String) : String := ⟨s.data.map Char.toLower⟩

/-- Models `new ObjectId(s)` on a request parameter: exactly 24 hexadecimal
characters are accepted (normalised to lower case, as the driver canonicalises
hex ids); anything else throws a `BSONError`. -/
def parseObjectId (s : String) : Option String :=
  if s.length == 24 && s.data.all isHexChar then some (strToLower s) else none

def digitsToNat (ds : List Char) : Nat :=
  ds.foldl (fun acc c => 10 * acc + (c.toNat - '0'.toNat)) 0

/-- Scan a decimal literal `digits [. digits] [(e|E) [sign] digits]` with an
optional leading sign from the front of a character list, returning its value
and the unconsumed rest; `none` when no digit is read. -/
def scanFloat (cs0 : List Char) : Option (Rat × List Char) :=
  let (neg, cs) := match cs0 with
    | '-' :: t => (true, t)
    | '+' :: t => (false, t)
    | _ => (false, cs0)
  let intDigits := cs.takeWhile Char.isDigit
  let cs1 := cs.drop intDigits.length
  let (fracDigits, cs2) := match cs1 with
    | '.' :: t => (t.takeWhile Char.isDigit, t.dropWhile Char.isDigit)
    | _ => ([], cs1)
  if intDigits.isEmpty && fracDigits.isEmpty then none
  else
    let mantNum : Int :=
      (digitsToNat intDigits : Int) * (10 : Int) ^ fracDigits.length +
        (digitsToNat fracDigits : Int)
    let sNum : Int := if neg then -mantNum else mantNum
    let mkVal : Int → List Char → Option (Rat × List Char) := fun e rest =>
      if 0 ≤ e then
        some (mkRat (sNum * (10 : Int) ^ e.toNat) ((10 : Nat) ^ fracDigits.length), rest)
      else
        some (mkRat sNum ((10 : Nat) ^ fracDigits.length * (10 : Nat) ^ (-e).toNat), rest)
    match cs2 with
    | e :: t =>
      if e == 'e' || e == 'E' then
        let (eneg, t2) := match t with
          | '-' :: u => (true, u)
          | '+' :: u => (false, u)
          | _ => (false, t)
        let eds := t2.takeWhile Char.isDigit
        if eds.isEmpty then mkVal 0 cs2
        else
          let ev : Int := if eneg then -(digitsToNat eds : Int) else (digitsToNat eds : Int)
          mkVal ev (t2.drop eds.length)
      else mkVal 0 cs2
    | [] => mkVal 0 []

def isWs (c : Char) : Bool :=
  c == ' ' || c == '\t' || c == '\n' || c == '\r'

/-- JavaScript `parseFloat`: skips leading whitespace and reads the longest
numeric prefix, ignoring trailing garbage; `none` models NaN.  (An `Infinity`
input yields an infinite value that no stored rational ever equals, so it is
modelled as `none` as well.) -/
def jsParseFloat (s : String) : Option Rat :=
  (scanFloat (s.data.dropWhile isWs)).map (·.1)

/-- JavaScript `parseInt(s, 10)`: skips whitespace, reads an optional sign and
the longest digit prefix; `none` models NaN. -/
def jsParseInt (s : String) : Option Int :=
  let cs0 := s.data.dropWhile isWs
  let (neg, cs) := match cs0 with
    | '-' :: t => (true, t)
    | '+' :: t => (false, t)
    | _ => (false, cs0)
  let ds := cs.takeWhile Char.isDigit
  if ds.isEmpty then none
  else some (if neg then -(digitsToNat ds : Int) else (digitsToNat ds : Int))

/-- Models `insertOne`: the driver assigns the supplied fresh id when the body
carries no `_id`; returns the updated collection and the inserted id value. -/
def insertOne (docs : List Doc) (body : Doc) (freshId : String) :
    List Doc × Value :=
  match getField body "_id" with
  | some v => (docs ++ [body], v)
  | none => (docs ++ [body ++ [("_id", Value.str freshId)]], .str freshId)

/-- Models `findOne({_id: oid})`: the first document whose `_id` equals the
given id. -/
def findOneById (docs : List Doc) (oid : String) : Option Doc :=
  docs.find? (fun d => decide (getField d "_id" = some (.str oid)))

/-- Models `deleteOne({_id: oid})`: remove the first matching document, and
report `deletedCount`. -/
def removeFirstById : List Doc → String → List Doc × Nat
  | [], _ => ([], 0)
  | d :: ds, oid =>
    if getField d "_id" = some (.str oid) then (ds, 1)
    else
      let r := removeFirstById ds oid
      (d :: r.1, r.2)

/-- A `$set` body whose `_id` differs from the matched document's `_id` makes
the store reject the update. -/
def setViolatesId (d : Doc) (body : Doc) : Bool :=
  match getField body "_id" with
  | none => false
  | some v => decide (getField d "_id" ≠ some v)

/-- Models `updateOne({_id: oid}, {$set: body})`: merge the body onto the
first matching document, and report `matchedCount`; attempting to modify the
immutable `_id` is a store error. -/
def updateOneById : List Doc → String → Doc → Except String (List Doc × Nat)
  | [], _, _ => .ok ([], 0)
  | d :: ds, oid, body =>
    if getField d "_id" = some (.str oid) then
      if setViolatesId d body then
        .error "Performing an update on the path _id would modify the immutable field _id"
      else .ok (applySet d body :: ds, 1)
    else
      match updateOneById ds oid body with
      | .ok r => .ok (d :: r.1, r.2)
      | .error e => .error e

/-- Atoms of the fragment of JavaScript regular expressions this model
covers: literal characters and the `.` wildcard.  The `GET /search` handler
builds its pattern from the raw query string; other metacharacters are
outside the model and excluded by hypothesis where a theorem needs regex
semantics. -/
inductive RAtom : Type where
  | wild : RAtom
  | ch (c : Char) : RAtom
deriving DecidableEq

/-- Models `new RegExp(q, "i")` for the covered fragment. -/
def jsRegexOfString (q : String) : List RAtom :=
  q.data.map (fun c => if c == '.' then .wild else .ch c)

/-- One atom against one subject character, under the `i` flag. -/
def atomMatch : RAtom → Char → Bool
  | .wild, _ => true
  | .ch c, d => c.toLower == d.toLower

/-- Does the pattern match a prefix of the subject? -/
def matchHere : List RAtom → List Char → Bool
  | [], _ => true
  | _ :: _, [] => false
  | a :: p, c :: s => atomMatch a c && matchHere p s

/-- Models `regex.test(s)`: the pattern matches at some position. -/
def regexTest (p : List RAtom) : List Char → Bool
  | [] => matchHere p []
  | c :: s => matchHere p (c :: s) || regexTest p s

/-- Case-insensitive prefix test on character lists (used to spell out what
"case-insensitive substring match" means in the claims). -/
def isPrefixCI : List Char → List Char → Bool
  | [], _ => true
  | _ :: _, [] => false
  | c :: p, d :: s => (c.toLower == d.toLower) && isPrefixCI p s

/-- Case-insensitive substring test on character lists. -/
def isSubstrCI (p : List Char) : List Char → Bool
  | [] => isPrefixCI p []
  | d :: s => isPrefixCI p (d :: s) || isSubstrCI p s

/-- A single condition pushed onto the `conditions` array of the `GET /search`
handler. -/
inductive Cond : Type where
  | regexMatch (field : String) (pat : List RAtom)
  | numEq (field : String) (v : Rat)
deriving DecidableEq

/-- The `conditions` array built by the `GET /search` handler, in source
order: the three regex conditions when the query is truthy (nonempty), then
the two numeric conditions when `parseFloat(query)` is not NaN. -/
def conditions (q : String) : List Cond :=
  (if q ≠ "" then
    [.regexMatch "subject" (jsRegexOfString q),
     .regexMatch "description" (jsRegexOfString q),
     .regexMatch "location" (jsRegexOfString q)]
   else []) ++
  (match jsParseFloat q with
   | some v => [.numEq "price" v, .numEq "availablespaces" v]
   | none => [])

/-- The `searchQuery` value of the handler: the conditions list, where the
empty list stands for the empty filter and a nonempty list for `$or`. -/
def searchQuery (q : String) : List Cond := conditions q

/-- Evaluate one condition on a document; a Mongo regex condition matches
string values only, and the numeric conditions compare numbers. -/
def evalCond (d : Doc) : Cond → Bool
  | .regexMatch f p =>
    match getField d f with
    | some (.str s) => regexTest p s.data
    | _ => false
  | .numEq f v =>
    match getField d f with
    | some (.num w) => decide (w = v)
    | _ => false

/-- Mongo filter semantics for the two shapes the handler builds: the empty
filter matches every document, a nonempty conditions list is wrapped in
`$or`. -/
def matchesFilter (conds : List Cond) (d : Doc) : Bool :=
  conds.isEmpty || conds.any (evalCond d)

/-- BSON type rank used by the store when sorting values of mixed types
(null < numbers < strings < arrays < booleans, restricted to the types of
this model). -/
def valRank : Value → Nat
  | .null => 0
  | .num _ => 1
  | .str _ => 2
  | .arr _ => 3
  | .bool _ => 4

/-- Comparison of two values of the same BSON type rank: numbers, strings and
booleans by their order; null is a tie.  Arrays compare element-wise in the
store and are modelled as ties, which no property below exercises. -/
def valLEsame (a b : Value) : Bool :=
  match a, b with
  | .num x, .num y => decide (x ≤ y)
  | .str x, .str y => decide (x ≤ y)
  | .bool x, .bool y => decide (x ≤ y)
  | _, _ => true

/-- Sort-order comparison of two values: by BSON type rank, then within the
rank. -/
def valLE (a b : Value) : Bool :=
  if valRank a < valRank b then true
  else if valRank b < valRank a then false
  else valLEsame a b

/-- The sort key of a document for `sort: [[field, dir]]`; a missing field
sorts like null. -/
def sortKey (field : String) (d : Doc) : Value :=
  (getField d field).getD .null

/-- Document comparison used by the sorted-list route; `dir` is the computed
`sortDirection` (`1` ascending, `-1` descending). -/
def docLE (field : String) (dir : Int) (d1 d2 : Doc) : Prop :=
  (if dir = -1 then valLE (sortKey field d2) (sortKey field d1)
   else valLE (sortKey field d1) (sortKey field d2)) = true

instance (field : String) (dir : Int) : DecidableRel (docLE field dir) :=
  fun _ _ => instDecidableEqBool _ _

/-- Models the store's sort of a collection by one field. -/
def sortDocs (field : String) (dir : Int) (docs : List Doc) : List Doc :=
  List.insertionSort (docLE field dir) docs

/-- Mongo `limit` option: `0` means no limit; a negative limit behaves like
its absolute value. -/
def applyLimit (m : Int) (docs : List Doc) : List Doc :=
  if m = 0 then docs else docs.take m.natAbs

inductive Method : Type where
  | get : Method
  | post : Method
  | put : Method
  | delete : Method
deriving DecidableEq

/-- One segment of an Express route pattern. -/
inductive Seg : Type where
  | lit (s : String) : Seg
  | pathParam (name : String) : Seg
deriving DecidableEq

def matchSeg : Seg → String → Bool
  | .lit s, t => s == t
  | .pathParam _, _ => true

/-- Express path matching: segment-wise, same length. -/
def matchPath : List Seg → List String → Bool
  | [], [] => true
  | sg :: ps, t :: ts => matchSeg sg t && matchPath ps ts
  | _, _ => false

/-- The handlers registered in `app.js`. -/
inductive HandlerId : Type where
  | root : HandlerId
  | listColl : HandlerId
  | getById : HandlerId
  | insertColl : HandlerId
  | deleteById : HandlerId
  | putById : HandlerId
  | ordersCreate : HandlerId
  | sortedList : HandlerId
  | search : HandlerId
deriving DecidableEq

structure Route where
  method : Method
  pattern : List Seg
  handler : HandlerId
deriving DecidableEq

/-- The Express routing table of `app.js`, in registration order.  Note that
the generic `POST /collections/:collectionName` route is registered before the
dedicated `POST /collections/orders` route. -/
def routes : List Route :=
  [⟨.get, [], .root⟩,
   ⟨.get, [.lit "collections", .pathParam "collectionName"], .listColl⟩,
   ⟨.get, [.lit "collections", .pathParam "collectionName", .pathParam "id"], .getById⟩,
   ⟨.post, [.lit "collections", .pathParam "collectionName"], .insertColl⟩,
   ⟨.delete, [.lit "collections", .pathParam "collectionName", .pathParam "id"], .deleteById⟩,
   ⟨.put, [.lit "collections", .pathParam "collectionName", .pathParam "id"], .putById⟩,
   ⟨.post, [.lit "collections", .lit "orders"], .ordersCreate⟩,
   ⟨.get, [.lit "collections", .pathParam "collectionName", .pathParam "max",
           .pathParam "sortAspect", .pathParam "sortAscDesc"], .sortedList⟩,
   ⟨.get, [.lit "search"], .search⟩]

/-- Express route dispatch: the first route in registration order whose
method and pattern match the request. -/
def findRoute (m : Method) (path : List String) : Option Route :=
  routes.find? (fun r => r.method == m && matchPath r.pattern path)

/-- Does a route's pattern carry the `collectionName` parameter (and hence
trigger the `app.param("collectionName")` middleware)? -/
def usesCollectionParam (h : HandlerId) : Bool :=
  match h with
  | .listColl | .getById | .insertColl | .deleteById | .putById | .sortedList => true
  | .root | .ordersCreate | .search => false

structure Request where
  method : Method
  path : List String
  body : Doc
  q : Option String

inductive RespBody : Type where
  | text (s : String) : RespBody
  | json (d : Doc) : RespBody
  | jsonArr (ds : List Doc) : RespBody
deriving DecidableEq

structure Response where
  status : Nat
  body : RespBody
deriving DecidableEq

/-- Outcome of running a handler: a response sent by the handler itself, or
an error the handler forwarded to `next`. -/
inductive Outcome : Type where
  | ok (r : Response) : Outcome
  | err (msg : String) : Outcome
deriving DecidableEq

def notInitMsg : String := "Database not initialized"

def bsonErrMsg : String :=
  "input must be a 24 character hex string, 12 byte Uint8Array, or an integer"

/-- Message of the TypeError thrown when the unset global `db` handle is
dereferenced (`db.collection(...)` on `undefined`). -/
def undefinedDbMsg : String :=
  "Cannot read properties of undefined (reading collection)"

def welcomeMsg : String :=
  "Welcome! Please select a collection, e.g., /collections/lessons"

def notFoundFallback : Response := ⟨404, .text "Error: Resource not found"⟩

/-- Run the matched route's handler on the request.  Routes whose pattern
carries the `collectionName` parameter first run the `app.param` middleware,
which throws `Database not initialized` when the global `db` is still unset;
that error (like any in a try/catch of these handlers) goes to `next`.  The
dedicated orders handler and the search handler use the global `db` directly
and answer their own 500 on failure.  Returns the outcome and the (possibly
updated) database. -/
def runHandler (h : HandlerId) (db? : Option Db) (freshId : String)
    (req : Request) : Outcome × Option Db :=
  match h with
  | .root => (.ok ⟨200, .text welcomeMsg⟩, db?)
  | .listColl =>
    match db? with
    | none => (.err notInitMsg, none)
    | some db =>
      match req.path with
      | [_, name] => (.ok ⟨200, .jsonArr (getColl db name)⟩, some db)
      | _ => (.err "unreachable", some db)
  | .getById =>
    match db? with
    | none => (.err notInitMsg, none)
    | some db =>
      match req.path with
      | [_, name, idS] =>
        match parseObjectId idS with
        | none => (.err bsonErrMsg, some db)
        | some oid =>
          match findOneById (getColl db name) oid with
          | none => (.ok ⟨404, .json [("msg", .str "Document not found")]⟩, some db)
          | some d => (.ok ⟨200, .json d⟩, some db)
      | _ => (.err "unreachable", some db)
  | .insertColl =>
    match db? with
    | none => (.err notInitMsg, none)
    | some db =>
      match req.path with
      | [_, name] =>
        let r := insertOne (getColl db name) req.body freshId
        (.ok ⟨200, .json [("acknowledged", .bool true), ("insertedId", r.2)]⟩,
         some (setColl db name r.1))
      | _ => (.err "unreachable", some db)
  | .deleteById =>
    match db? with
    | none => (.err notInitMsg, none)
    | some db =>
      match req.path with
      | [_, name, idS] =>
        match parseObjectId idS with
        | none => (.err bsonErrMsg, some db)
        | some oid =>
          let r := removeFirstById (getColl db name) oid
          (.ok ⟨200, .json [("msg", .str (if r.2 = 1 then "success" else "error"))]⟩,
           some (setColl db name r.1))
      | _ => (.err "unreachable", some db)
  | .putById =>
    match db? with
    | none => (.err notInitMsg, none)
    | some db =>
      match req.path with
      | [_, name, idS] =>
        match parseObjectId idS with
        | none => (.err bsonErrMsg, some db)
        | some oid =>
          match updateOneById (getColl db name) oid req.body with
          | .error e => (.err e, some db)
          | .ok r =>
            (.ok ⟨200, .json [("msg", .str (if r.2 = 1 then "success" else "error"))]⟩,
             some (setColl db name r.1))
      | _ => (.err "unreachable", some db)
  | .ordersCreate =>
    let order := req.body
    if !(truthy (getField order "name")) || !(truthy (getField order "email")) ||
       !(truthy (getField order "lessonIDs")) || !(isArray (getField order "lessonIDs")) then
      (.ok ⟨400, .json [("msg", .str "Invalid order data. Ensure all required fields are provided.")]⟩, db?)
    else
      match db? with
      | none =>
        (.ok ⟨500, .json [("msg", .str "An error occurred while processing your order. Please try again.")]⟩, none)
      | some db =>
        let r := insertOne (getColl db "orders") order freshId
        (.ok ⟨201, .json [("msg", .str "Order created successfully"), ("orderID", r.2)]⟩,
         some (setColl db "orders" r.1))
  | .sortedList =>
    match db? with
    | none => (.err notInitMsg, none)
    | some db =>
      match req.path with
      | [_, name, maxS, aspect, ascDesc] =>
        let sortDirection : Int := if ascDesc == "desc" then -1 else 1
        let sorted := sortDocs aspect sortDirection (getColl db name)
        let limited := match jsParseInt maxS with
          | some m => applyLimit m sorted
          | none => sorted
        (.ok ⟨200, .jsonArr limited⟩, some db)
      | _ => (.err "unreachable", some db)
  | .search =>
    let q := req.q.getD ""
    match db? with
    | none => (.ok ⟨500, .json [("error", .str undefinedDbMsg)]⟩, none)
    | some db =>
      (.ok ⟨200, .jsonArr ((getColl db "lessons").filter (matchesFilter (searchQuery q)))⟩,
       some db)

/-- Full Express dispatch of one request: the first matching route in
registration order runs; a request matching no route reaches the final
plain-text 404 middleware.  An error a handler forwards to `next` skips that
final middleware (it takes two arguments, so Express does not treat it as an
error handler) and reaches Express's built-in final error handler, which
responds with status 500. -/
def dispatch (db? : Option Db) (freshId : String) (req : Request) :
    Response × Option Db :=
  match findRoute req.method req.path with
  | none => (notFoundFallback, db?)
  | some r =>
    match runHandler r.handler db? freshId req with
    | (.ok resp, db) => (resp, db)
    | (.err msg, db) => (⟨500, .text msg⟩, db)

/-- Formalisation of the claims' phrase "q parses as a number": the whole
string is a signed decimal numeric literal (nothing left over). -/
def specNumberParse (s : String) : Option Rat :=
  match scanFloat s.data with
  | some (v, []) => some v
  | _ => none

/-- Case-insensitive substring test of the query against one text field of a
document, as the claims word it. -/
def fieldSubstrCI (d : Doc) (f : String) (q : String) : Bool :=
  match getField d f with
  | some (.str s) => isSubstrCI q.data s.data
  | _ => false

/-- Numeric equality of the parsed query against one numeric field. -/
def fieldNumEq (d : Doc) (f : String) (v : Rat) : Bool :=
  match getField d f with
  | some (.num w) => decide (w = v)
  | _ => false

/-- The search filter semantics asserted by claim C5, spelled from its words:
the disjunction of case-insensitive substring matches of `q` against
`subject`, `description` and `location`, plus exact numeric equality of `q`
against `price` and `availablespaces` when `q` parses as a number; an empty
`q` matches everything. -/
def claimSearchMatches (q : String) (d : Doc) : Bool :=
  if q = "" then true
  else
    fieldSubstrCI d "subject" q || fieldSubstrCI d "description" q ||
    fieldSubstrCI d "location" q ||
    (match specNumberParse q with
     | some v => fieldNumEq d "price" v || fieldNumEq d "availablespaces" v
     | none => false)

/-- Characters with a special meaning in JS regular expressions; a query free
of them is matched literally by `new RegExp(q, "i")`. -/
def regexMeta : List Char :=
  ['.', '*', '+', '?', '(', ')', '[', ']', '\x7b', '\x7d', '|', '^', '$', '\\']

def metaFree (q : String) : Bool :=
  q.data.all (fun c => !regexMeta.contains c)

theorem valLEsame_total (a b : Value) :
    valLEsame a b = true ∨ valLEsame b a = true := by
  cases a <;> cases b <;> simp [valLEsame] <;> exact le_total _ _

theorem valLEsame_trans {a b c : Value} (h1 : valRank a = valRank b)
    (h2 : valRank b = valRank c) (hab : valLEsame a b = true)
    (hbc : valLEsame b c = true) : valLEsame a c = true := by
  cases a <;> cases b <;> cases c <;>
    simp_all [valRank, valLEsame] <;> exact le_trans hab hbc

theorem valLE_total (a b : Value) : valLE a b = true ∨ valLE b a = true := by
  unfold valLE
  rcases Nat.lt_trichotomy (valRank a) (valRank b) with h | h | h
  · left; simp [h]
  · simp only [h, lt_irrefl, if_false]
    exact valLEsame_total a b
  · right; simp [h]

theorem valLE_char (a b : Value) : valLE a b = true ↔
    valRank a < valRank b ∨ (valRank a = valRank b ∧ valLEsame a b = true) := by
  unfold valLE
  rcases Nat.lt_trichotomy (valRank a) (valRank b) with h | h | h
  · simp [h]
  · simp [h, lt_irrefl]
  · simp [h, Nat.lt_asymm h, Ne.symm (Nat.ne_of_lt h)]

theorem valLE_trans {a b c : Value} (hab : valLE a b = true)
    (hbc : valLE b c = true) : valLE a c = true := by
  rcases (valLE_char a b).1 hab with h1 | ⟨h1, hs1⟩ <;>
    rcases (valLE_char b c).1 hbc with h2 | ⟨h2, hs2⟩
  · exact (valLE_char a c).2 (Or.inl (lt_trans h1 h2))
  · exact (valLE_char a c).2 (Or.inl (h2 ▸ h1))
  · exact (valLE_char a c).2 (Or.inl (h1 ▸ h2))
  · exact (valLE_char a c).2 (Or.inr ⟨h1.trans h2, valLEsame_trans h1 h2 hs1 hs2⟩)

theorem docLE_total (f : String) (dir : Int) (d1 d2 : Doc) :
    docLE f dir d1 d2 ∨ docLE f dir d2 d1 := by
  by_cases h : dir = -1
  · simp only [docLE, h, if_true, eq_self_iff_true]
    exact valLE_total _ _
  · simp only [docLE, h, if_false]
    exact valLE_total _ _

theorem docLE_trans (f : String) (dir : Int) {d1 d2 d3 : Doc}
    (h12 : docLE f dir d1 d2) (h23 : docLE f dir d2 d3) : docLE f dir d1 d3 := by
  by_cases h : dir = -1
  · simp only [docLE, h, if_true, eq_self_iff_true] at *
    exact valLE_trans h23 h12
  · simp only [docLE, h, if_false] at *
    exact valLE_trans h12 h23

instance (f : String) (dir : Int) : IsTotal Doc (docLE f dir) :=
  ⟨docLE_total f dir⟩

instance (f : String) (dir : Int) : IsTrans Doc (docLE f dir) :=
  ⟨fun _ _ _ => docLE_trans f dir⟩

theorem getField_cons (p : String × Value) (t : Doc) (f : String) :
    getField (p :: t) f = if f = p.1 then some p.2 else getField t f := by
  cases p with
  | mk a b =>
    by_cases h : f = a
    · simp [getField, List.lookup, h]
    · have hb : (f == a) = false := beq_eq_false_iff_ne.mpr h
      simp [getField, List.lookup, h, hb]

theorem getField_append (a b : Doc) (f : String) :
    getField (a ++ b) f = (getField a f).or (getField b f) := by
  induction a with
  | nil => simp [getField, List.lookup]
  | cons p t ih =>
    rw [List.cons_append, getField_cons, getField_cons]
    by_cases h : f = p.1 <;> simp [h, ih]

theorem getField_nil (f : String) : getField [] f = none := rfl

theorem getField_singleton_ne (k : String) (v : Value) (f : String) (h : f ≠ k) :
    getField [(k, v)] f = none := by
  rw [getField_cons, if_neg h]
  rfl

theorem getField_singleton_self (k : String) (v : Value) :
    getField [(k, v)] k = some v := by
  rw [getField_cons, if_pos rfl]

theorem getField_setField_self (d : Doc) (k : String) (v : Value) :
    getField (setField d k v) k = some v := by
  induction d with
  | nil => simp [setField, getField_singleton_self]
  | cons p t ih =>
    by_cases h : p.1 == k
    · have hk : p.1 = k := by simpa using h
      simp [setField, h, getField_cons, hk]
    · have hk : ¬(k = p.1) := fun hc => (by simpa using h : ¬(p.1 = k)) hc.symm
      simp [setField, h, getField_cons, hk, ih]

theorem getField_setField_ne (d : Doc) (k : String) (v : Value) (f : String)
    (h : f ≠ k) : getField (setField d k v) f = getField d f := by
  induction d with
  | nil =>
    simp [setField, getField_singleton_ne _ _ _ h, getField_nil]
  | cons p t ih =>
    by_cases h1 : p.1 == k
    · have hk : p.1 = k := by simpa using h1
      simp only [setField, h1, if_true, getField_cons]
      by_cases hf : f = p.1
      · exact absurd (hf.trans hk) h
      · simp [hf]
    · simp only [setField, h1, if_false, Bool.false_eq_true, getField_cons, ih]

theorem getColl_cons (p : String × List Doc) (t : Db) (name : String) :
    getColl (p :: t) name = if name = p.1 then p.2 else getColl t name := by
  cases p with
  | mk a b =>
    by_cases h : name = a
    · simp [getColl, List.lookup, h]
    · have hb : (name == a) = false := beq_eq_false_iff_ne.mpr h
      simp [getColl, List.lookup, h, hb]

theorem getColl_setColl_self (db : Db) (name : String) (docs : List Doc) :
    getColl (setColl db name docs) name = docs := by
  induction db with
  | nil => simp [setColl, getColl, List.lookup]
  | cons p t ih =>
    by_cases h : p.1 == name
    · have hk : p.1 = name := by simpa using h
      simp [setColl, h, getColl_cons, hk]
    · have hk : ¬(name = p.1) := fun hc => (by simpa using h : ¬(p.1 = name)) hc.symm
      simp [setColl, h, getColl_cons, hk, ih]

theorem getField_eq_none_of_not_mem (body : Doc) (k : String)
    (h : k ∉ body.map Prod.fst) : getField body k = none := by
  induction body with
  | nil => rfl
  | cons p t ih =>
    rw [getField_cons, if_neg (fun hc => h (by simp [hc])),
      ih (fun hc => h (by simp [hc]))]

theorem applySet_cons (d : Doc) (k : String) (v : Value) (rest : Doc) :
    applySet d ((k, v) :: rest) = applySet (setField d k v) rest := rfl

theorem getField_applySet (body : Doc) (d : Doc) (f : String)
    (hnd : (body.map Prod.fst).Nodup) :
    getField (applySet d body) f = (getField body f).or (getField d f) := by
  induction body generalizing d with
  | nil => simp [applySet, getField_nil]
  | cons p rest ih =>
    obtain ⟨k, v⟩ := p
    have hnd2 : (k :: rest.map Prod.fst).Nodup := by simpa using hnd
    have hk : k ∉ rest.map Prod.fst := (List.nodup_cons.mp hnd2).1
    have hrest : (rest.map Prod.fst).Nodup := (List.nodup_cons.mp hnd2).2
    rw [applySet_cons, ih _ hrest, getField_cons]
    by_cases hf : f = k
    · subst hf
      rw [getField_eq_none_of_not_mem rest f hk, getField_setField_self]
      simp
    · rw [getField_setField_ne _ _ _ _ hf]
      simp [hf]

theorem findOneById_cons (d : Doc) (ds : List Doc) (oid : String) :
    findOneById (d :: ds) oid =
      if getField d "_id" = some (.str oid) then some d else findOneById ds oid := by
  by_cases h : getField d "_id" = some (.str oid) <;>
    simp [findOneById, List.find?, h]

theorem findOneById_append (xs ys : List Doc) (oid : String) :
    findOneById (xs ++ ys) oid = (findOneById xs oid).or (findOneById ys oid) := by
  simp [findOneById, List.find?_append]

theorem removeFirstById_count (docs : List Doc) (oid : String) :
    (removeFirstById docs oid).2 = if (findOneById docs oid).isSome then 1 else 0 := by
  induction docs with
  | nil => simp [removeFirstById, findOneById, List.find?]
  | cons d ds ih =>
    by_cases h : getField d "_id" = some (.str oid) <;>
      simp [removeFirstById, findOneById_cons, h, ih]

theorem setViolatesId_of_none (d : Doc) (body : Doc)
    (hb : getField body "_id" = none) : setViolatesId d body = false := by
  simp [setViolatesId, hb]

theorem updateOneById_count (docs : List Doc) (oid : String) (body : Doc)
    (hb : getField body "_id" = none) :
    ∃ r, updateOneById docs oid body = .ok r ∧
      r.2 = if (findOneById docs oid).isSome then 1 else 0 := by
  induction docs with
  | nil => exact ⟨([], 0), rfl, by simp [findOneById, List.find?]⟩
  | cons d ds ih =>
    by_cases h : getField d "_id" = some (.str oid)
    · refine ⟨(applySet d body :: ds, 1), ?_, ?_⟩
      · simp [updateOneById, h, setViolatesId_of_none d body hb]
      · simp [findOneById_cons, h]
    · obtain ⟨r, hr, hc⟩ := ih
      refine ⟨(d :: r.1, r.2), ?_, ?_⟩
      · simp [updateOneById, h, hr]
      · simp [findOneById_cons, h, hc]

theorem updateOneById_found (docs : List Doc) (oid : String) (body : Doc) (d : Doc)
    (hb : getField body "_id" = none)
    (hd : findOneById docs oid = some d) :
    ∃ pre post, docs = pre ++ d :: post ∧
      (∀ e ∈ pre, ¬(getField e "_id" = some (.str oid))) ∧
      updateOneById docs oid body = .ok (pre ++ applySet d body :: post, 1) := by
  induction docs with
  | nil => simp [findOneById, List.find?] at hd
  | cons d0 ds ih =>
    by_cases h : getField d0 "_id" = some (.str oid)
    · rw [findOneById_cons, if_pos h, Option.some_inj] at hd
      subst hd
      refine ⟨[], ds, rfl, by simp, ?_⟩
      simp [updateOneById, h, setViolatesId_of_none d0 body hb]
    · rw [findOneById_cons, if_neg h] at hd
      obtain ⟨pre, post, he, hp, hu⟩ := ih hd
      refine ⟨d0 :: pre, post, by rw [List.cons_append, he], ?_, ?_⟩
      · intro e he2
        rcases List.mem_cons.mp he2 with rfl | hmem
        · exact h
        · exact hp e hmem
      · simp [updateOneById, h, hu]

theorem jsRegex_of_metaFree (q : String) (h : metaFree q = true) :
    jsRegexOfString q = q.data.map RAtom.ch := by
  unfold jsRegexOfString
  apply List.map_congr_left
  intro c hc
  have : ¬regexMeta.contains c = true := by
    simp only [metaFree, List.all_eq_true] at h
    simpa using h c hc
  have hdot : ¬(c = '.') := fun he => this (by simp [regexMeta, he, List.contains])
  simp [show (c == '.') = false from beq_eq_false_iff_ne.mpr hdot]

theorem matchHere_map_ch (p : List Char) (s : List Char) :
    matchHere (p.map RAtom.ch) s = isPrefixCI p s := by
  induction p generalizing s with
  | nil => cases s <;> rfl
  | cons c p ih =>
    cases s with
    | nil => rfl
    | cons d t => simp [matchHere, isPrefixCI, atomMatch, ih]

theorem regexTest_map_ch (p : List Char) (s : List Char) :
    regexTest (p.map RAtom.ch) s = isSubstrCI p s := by
  induction s with
  | nil => simp [regexTest, isSubstrCI, matchHere_map_ch]
  | cons c t ih => simp [regexTest, isSubstrCI, matchHere_map_ch, ih]

/-- C2: every POST request to /collections/orders is dispatched to the generic
insert handler, registered first: the body is inserted verbatim into the
orders collection with no field validation, and the dedicated order-creation
handler (whose responses are 400 and 201) is never executed — the response
status is always the generic 200 insert acknowledgment. -/
theorem ordersPost_shadowed_by_generic_insert :
    (findRoute .post ["collections", "orders"] =
      some ⟨.post, [.lit "collections", .pathParam "collectionName"], .insertColl⟩) ∧
    ((⟨.post, [.lit "collections", .pathParam "collectionName"], .insertColl⟩ : Route).handler ≠
      .ordersCreate) ∧
    (∀ (db : Db) (fid : String) (body : Doc),
      dispatch (some db) fid ⟨.post, ["collections", "orders"], body, none⟩ =
        (⟨200, .json [("acknowledged", .bool true),
                      ("insertedId", (insertOne (getColl db "orders") body fid).2)]⟩,
         some (setColl db "orders" (insertOne (getColl db "orders") body fid).1))) ∧
    (∀ (db : Db) (fid : String) (body : Doc),
      (dispatch (some db) fid ⟨.post, ["collections", "orders"], body, none⟩).1.status ≠ 400 ∧
      (dispatch (some db) fid ⟨.post, ["collections", "orders"], body, none⟩).1.status ≠ 201) :=
  ⟨rfl, by decide, fun _ _ _ => rfl,
   fun _ _ _ => ⟨(by decide : (200 : Nat) ≠ 400), (by decide : (200 : Nat) ≠ 201)⟩⟩

/-- C1 counterexample: a POST /collections/orders body with name, email and
lessonIDs but no address or phone is not rejected with 400 — it is accepted
with status 200 by the generic insert route; and a complete order body does
not get 201 either, but the same generic 200. -/
theorem orders_validation_counterexample :
    (((dispatch (some [("orders", [])]) "656f0123456789abcdef0123"
        ⟨.post, ["collections", "orders"],
         [("name", .str "A"), ("email", .str "a@b.com"),
          ("lessonIDs", .arr [.num 1, .num 2])], none⟩).1.status = 200) ∧
     ((dispatch (some [("orders", [])]) "656f0123456789abcdef0123"
        ⟨.post, ["collections", "orders"],
         [("name", .str "A"), ("email", .str "a@b.com"),
          ("lessonIDs", .arr [.num 1, .num 2])], none⟩).1.status ≠ 400)) ∧
    (((dispatch (some [("orders", [])]) "656f0123456789abcdef0123"
        ⟨.post, ["collections", "orders"],
         [("name", .str "A"), ("email", .str "a@b.com"),
          ("address", .str "1 Road"), ("city", .str "London"),
          ("postcode", .str "N1"), ("phone", .str "07000000000"),
          ("lessonIDs", .arr [.num 1, .num 2])], none⟩).1.status = 200) ∧
     ((dispatch (some [("orders", [])]) "656f0123456789abcdef0123"
        ⟨.post, ["collections", "orders"],
         [("name", .str "A"), ("email", .str "a@b.com"),
          ("address", .str "1 Road"), ("city", .str "London"),
          ("postcode", .str "N1"), ("phone", .str "07000000000"),
          ("lessonIDs", .arr [.num 1, .num 2])], none⟩).1.status ≠ 201)) := by
  decide

/-- C1 amended: every POST /collections/orders request, whatever fields its
body carries, is handled by the generic insert route: the body is inserted
verbatim into the orders collection and the response is the HTTP 200 insert
acknowledgment with the generated identifier; neither the 400 rejection nor
the 201 creation response ever occurs. -/
theorem orders_post_no_validation (db : Db) (fid : String) (body : Doc) :
    ((dispatch (some db) fid ⟨.post, ["collections", "orders"], body, none⟩).1.status = 200) ∧
    ((dispatch (some db) fid ⟨.post, ["collections", "orders"], body, none⟩).1.status ≠ 400) ∧
    ((dispatch (some db) fid ⟨.post, ["collections", "orders"], body, none⟩).1.status ≠ 201) ∧
    ((dispatch (some db) fid ⟨.post, ["collections", "orders"], body, none⟩).2 =
      some (setColl db "orders" (insertOne (getColl db "orders") body fid).1)) :=
  ⟨rfl, (by decide : (200 : Nat) ≠ 400), (by decide : (200 : Nat) ≠ 201), rfl⟩

/-- C3 counterexample: on a non-search route, a store-operation exception (a
malformed identifier) does not surface as the generic unmatched-route 404
plain text — the forwarded error reaches Express's built-in final handler and
the client receives a 500. -/
theorem error_path_counterexample :
    ((dispatch (some [("lessons", [])]) "656f0123456789abcdef0123"
       ⟨.get, ["collections", "lessons", "zzz"], [], none⟩).1 =
      ⟨500, .text bsonErrMsg⟩) ∧
    ((⟨500, .text bsonErrMsg⟩ : Response) ≠ notFoundFallback) := by
  decide

/-- C3 amended: an exception forwarded to next on any route is answered by
Express's built-in final error handler with HTTP 500 and the error message
(the 2-ary fallback middleware is skipped in error mode); the plain-text 404
is produced exactly for requests matching no route; on /search a store
failure (the unset db handle) yields HTTP 500 with the error message as
body. -/
theorem error_path_behavior (db? : Option Db) (fid : String) (req : Request) :
    (∀ r msg, findRoute req.method req.path = some r →
      (runHandler r.handler db? fid req).1 = .err msg →
      (dispatch db? fid req).1 = ⟨500, .text msg⟩) ∧
    (findRoute req.method req.path = none →
      (dispatch db? fid req).1 = notFoundFallback) ∧
    (∀ qS, (dispatch none fid ⟨.get, ["search"], [], qS⟩).1 =
      ⟨500, .json [("error", .str undefinedDbMsg)]⟩) := by
  refine ⟨?_, ?_, ?_⟩
  · intro r msg h1 h2
    rcases he : runHandler r.handler db? fid req with ⟨o, db2⟩
    rw [he] at h2
    simp only at h2
    subst h2
    simp [dispatch, h1, he]
  · intro h
    unfold dispatch
    rw [h]
  · intro qS
    rfl

/-- C3 witness for the amended theorem: a malformed-id GET is answered 500
with the BSON error message. -/
theorem error_path_behavior_witness :
    (dispatch (some [("lessons", [])]) "656f0123456789abcdef0124"
      ⟨.get, ["collections", "lessons", "notahexid"], [], none⟩).1 =
      ⟨500, .text bsonErrMsg⟩ :=
  (error_path_behavior (some [("lessons", [])]) "656f0123456789abcdef0124"
      ⟨.get, ["collections", "lessons", "notahexid"], [], none⟩).1
    ⟨.get, [.lit "collections", .pathParam "collectionName", .pathParam "id"], .getById⟩
    bsonErrMsg (by decide) (by decide)

/-- C4 counterexample: with the store connection not yet established, the
/search route does not fail with the explicit Database-not-initialized error:
it dereferences the unset handle (a TypeError), returned as HTTP 500; and the
root route does not fail at all. -/
theorem db_uninit_counterexample :
    ((dispatch none "656f0123456789abcdef0125" ⟨.get, ["search"], [], some "x"⟩).1 =
      ⟨500, .json [("error", .str undefinedDbMsg)]⟩) ∧
    (undefinedDbMsg ≠ notInitMsg) ∧
    ((dispatch none "656f0123456789abcdef0125" ⟨.get, [], [], none⟩).1 =
      ⟨200, .text welcomeMsg⟩) := by
  decide

/-- C4 amended: before the store connection is established, every route that
resolves a collection through the collectionName parameter fails fast with
the explicit Database-not-initialized error (answered 500 by the final error
handler); the /search route instead fails by dereferencing the unset handle,
whose TypeError its catch returns as HTTP 500. -/
theorem db_uninit_behavior (fid : String) (req : Request) :
    (∀ r, findRoute req.method req.path = some r →
      usesCollectionParam r.handler = true →
      dispatch none fid req = (⟨500, .text notInitMsg⟩, none)) ∧
    (∀ qS, dispatch none fid ⟨.get, ["search"], [], qS⟩ =
      (⟨500, .json [("error", .str undefinedDbMsg)]⟩, none)) := by
  constructor
  · intro r h hu
    unfold dispatch
    rw [h]
    rcases r with ⟨m, pat, hh⟩
    cases hh <;> simp only [usesCollectionParam, Bool.false_eq_true] at hu <;> rfl
  · intro qS
    rfl

/-- C4 witness for the amended theorem: a list request before initialization
fails with the Database-not-initialized error. -/
theorem db_uninit_behavior_witness :
    dispatch none "656f0123456789abcdef0126"
      ⟨.get, ["collections", "lessons"], [], none⟩ =
      (⟨500, .text notInitMsg⟩, none) :=
  (db_uninit_behavior "656f0123456789abcdef0126"
      ⟨.get, ["collections", "lessons"], [], none⟩).1
    ⟨.get, [.lit "collections", .pathParam "collectionName"], .listColl⟩
    (by decide) (by decide)

/-- C7: GET /collections/name/id returns the matching document as JSON when
it exists, HTTP 404 with msg Document-not-found when no document has that id,
and for an id that cannot be parsed into an ObjectId the request surfaces as
a generic error (the forwarded BSON error, answered 500), never as the 404
not-found response. -/
theorem getById_contract (db : Db) (fid name idS : String) :
    (∀ oid, parseObjectId idS = some oid →
      (∀ d, findOneById (getColl db name) oid = some d →
        (dispatch (some db) fid ⟨.get, ["collections", name, idS], [], none⟩).1 =
          ⟨200, .json d⟩) ∧
      (findOneById (getColl db name) oid = none →
        (dispatch (some db) fid ⟨.get, ["collections", name, idS], [], none⟩).1 =
          ⟨404, .json [("msg", .str "Document not found")]⟩)) ∧
    (parseObjectId idS = none →
      ((dispatch (some db) fid ⟨.get, ["collections", name, idS], [], none⟩).1 =
        ⟨500, .text bsonErrMsg⟩) ∧
      ((⟨500, .text bsonErrMsg⟩ : Response) ≠
        ⟨404, .json [("msg", .str "Document not found")]⟩)) := by
  have hroute : findRoute .get ["collections", name, idS] =
      some ⟨.get, [.lit "collections", .pathParam "collectionName", .pathParam "id"],
        .getById⟩ := rfl
  refine ⟨fun oid hp => ⟨fun d hd => ?_, fun hd => ?_⟩, fun hp => ⟨?_, by decide⟩⟩
  · simp [dispatch, hroute, runHandler, hp, hd]
  · simp [dispatch, hroute, runHandler, hp, hd]
  · simp [dispatch, hroute, runHandler, hp]

/-- C7 witness: the three branches at concrete inputs. -/
theorem getById_contract_witness :
    ((dispatch (some [("c", [[("_id", Value.str "656f0123456789abcdef0123"),
        ("a", Value.num 1)]])]) "656f0123456789abcdef0199"
      ⟨.get, ["collections", "c", "656f0123456789abcdef0123"], [], none⟩).1 =
      ⟨200, .json [("_id", Value.str "656f0123456789abcdef0123"), ("a", Value.num 1)]⟩) ∧
    ((dispatch (some [("c", [[("_id", Value.str "656f0123456789abcdef0123"),
        ("a", Value.num 1)]])]) "656f0123456789abcdef0199"
      ⟨.get, ["collections", "c", "656f0123456789abcdef0456"], [], none⟩).1 =
      ⟨404, .json [("msg", .str "Document not found")]⟩) ∧
    ((dispatch (some [("c", [[("_id", Value.str "656f0123456789abcdef0123"),
        ("a", Value.num 1)]])]) "656f0123456789abcdef0199"
      ⟨.get, ["collections", "c", "zzz"], [], none⟩).1 =
      ⟨500, .text bsonErrMsg⟩) :=
  ⟨((getById_contract _ _ "c" "656f0123456789abcdef0123").1
      "656f0123456789abcdef0123" (by decide)).1 _ (by decide),
   ((getById_contract _ _ "c" "656f0123456789abcdef0456").1
      "656f0123456789abcdef0456" (by decide)).2 (by decide),
   ((getById_contract _ _ "c" "zzz").2 (by decide)).1⟩

/-- C8: for a well-formed id, PUT /collections/name/id responds with body
msg success exactly when one document matched and msg error otherwise
(including zero matches), with HTTP status 200; likewise DELETE responds msg
success exactly when one document was removed, else msg error, also with
status 200. -/
theorem put_delete_soft_result (db : Db) (fid name idS oid : String) (body : Doc)
    (hid : parseObjectId idS = some oid)
    (hb : getField body "_id" = none) :
    ((dispatch (some db) fid ⟨.put, ["collections", name, idS], body, none⟩).1 =
      ⟨200, .json [("msg", .str (if (findOneById (getColl db name) oid).isSome
        then "success" else "error"))]⟩) ∧
    ((dispatch (some db) fid ⟨.delete, ["collections", name, idS], [], none⟩).1 =
      ⟨200, .json [("msg", .str (if (findOneById (getColl db name) oid).isSome
        then "success" else "error"))]⟩) ∧
    (((dispatch (some db) fid ⟨.put, ["collections", name, idS], body, none⟩).1 =
        ⟨200, .json [("msg", .str "success")]⟩) ↔
      (findOneById (getColl db name) oid).isSome = true) ∧
    (((dispatch (some db) fid ⟨.delete, ["collections", name, idS], [], none⟩).1 =
        ⟨200, .json [("msg", .str "success")]⟩) ↔
      (findOneById (getColl db name) oid).isSome = true) := by
  have hrp : findRoute .put ["collections", name, idS] =
      some ⟨.put, [.lit "collections", .pathParam "collectionName", .pathParam "id"],
        .putById⟩ := rfl
  have hrd : findRoute .delete ["collections", name, idS] =
      some ⟨.delete, [.lit "collections", .pathParam "collectionName", .pathParam "id"],
        .deleteById⟩ := rfl
  obtain ⟨r, hr, hc⟩ := updateOneById_count (getColl db name) oid body hb
  have hput : (dispatch (some db) fid
      ⟨.put, ["collections", name, idS], body, none⟩).1 =
      ⟨200, .json [("msg", .str (if (findOneById (getColl db name) oid).isSome
        then "success" else "error"))]⟩ := by
    cases hs : (findOneById (getColl db name) oid).isSome <;>
      simp [hs] at hc <;>
      simp [dispatch, hrp, runHandler, hid, hr, hc, hs]
  have hdel : (dispatch (some db) fid
      ⟨.delete, ["collections", name, idS], [], none⟩).1 =
      ⟨200, .json [("msg", .str (if (findOneById (getColl db name) oid).isSome
        then "success" else "error"))]⟩ := by
    have hrc := removeFirstById_count (getColl db name) oid
    cases hs : (findOneById (getColl db name) oid).isSome <;>
      simp [hs] at hrc <;>
      simp [dispatch, hrd, runHandler, hid, hrc, hs]
  refine ⟨hput, hdel, ?_, ?_⟩
  · rw [hput]
    cases hs : (findOneById (getColl db name) oid).isSome <;> simp [hs]
  · rw [hdel]
    cases hs : (findOneById (getColl db name) oid).isSome <;> simp [hs]

/-- C8 witness: a present id updates and deletes with msg success; an absent
id yields msg error with status 200. -/
theorem put_delete_soft_result_witness :
    ((dispatch (some [("c", [[("_id", Value.str "656f0123456789abcdef0123")]])])
        "656f0123456789abcdef0199"
        ⟨.put, ["collections", "c", "656f0123456789abcdef0123"],
          [("a", Value.num 2)], none⟩).1 =
      ⟨200, .json [("msg", .str "success")]⟩) ∧
    ((dispatch (some [("c", [])]) "656f0123456789abcdef0199"
        ⟨.delete, ["collections", "c", "656f0123456789abcdef0123"], [], none⟩).1 =
      ⟨200, .json [("msg", .str "error")]⟩) :=
  ⟨by
    have h := (put_delete_soft_result
      [("c", [[("_id", Value.str "656f0123456789abcdef0123")]])]
      "656f0123456789abcdef0199" "c" "656f0123456789abcdef0123"
      "656f0123456789abcdef0123" [("a", Value.num 2)]
      (by decide) (by decide)).1
    simpa using h,
   by
    have h := (put_delete_soft_result [("c", [])] "656f0123456789abcdef0199"
      "c" "656f0123456789abcdef0123" "656f0123456789abcdef0123" []
      (by decide) (by decide)).2.1
    simpa using h⟩

theorem findOneById_append_left_none (pre rest : List Doc) (oid : String)
    (hp : ∀ e ∈ pre, ¬(getField e "_id" = some (.str oid))) :
    findOneById (pre ++ rest) oid = findOneById rest oid := by
  rw [findOneById_append]
  have hnone : findOneById pre oid = none := by
    simp only [findOneById, List.find?_eq_none, decide_eq_true_eq]
    exact hp
  simp [hnone]

theorem findOneById_id_of_found (docs : List Doc) (oid : String) (d : Doc)
    (hd : findOneById docs oid = some d) :
    getField d "_id" = some (.str oid) := by
  have := List.find?_some hd
  simpa using this

/-- C9: for a well-formed id matching a document, PUT /collections/name/id
performs a field-level merge: the matched document is replaced by the
document whose fields present in the body take the body's values and whose
other fields are unchanged; all other documents are untouched. -/
theorem putById_field_merge (db : Db) (fid name idS oid : String)
    (body : Doc) (d : Doc) (docs2 : List Doc) (n : Nat)
    (hid : parseObjectId idS = some oid)
    (hb : getField body "_id" = none)
    (hnd : (body.map Prod.fst).Nodup)
    (hd : findOneById (getColl db name) oid = some d)
    (hup : updateOneById (getColl db name) oid body = .ok (docs2, n)) :
    (dispatch (some db) fid ⟨.put, ["collections", name, idS], body, none⟩ =
      (⟨200, .json [("msg", .str "success")]⟩, some (setColl db name docs2))) ∧
    (findOneById docs2 oid = some (applySet d body)) ∧
    (∀ f, getField (applySet d body) f = (getField body f).or (getField d f)) := by
  obtain ⟨pre, post, he, hnm, hu⟩ := updateOneById_found (getColl db name) oid body d hb hd
  rw [hu] at hup
  have hdocs2 : docs2 = pre ++ applySet d body :: post := by
    cases hup
    rfl
  have hn : n = 1 := by
    cases hup
    rfl
  subst hdocs2
  subst hn
  have hmerge : ∀ f, getField (applySet d body) f = (getField body f).or (getField d f) :=
    fun f => getField_applySet body d f hnd
  refine ⟨?_, ?_, hmerge⟩
  · have hroute : findRoute .put ["collections", name, idS] =
        some ⟨.put, [.lit "collections", .pathParam "collectionName", .pathParam "id"],
          .putById⟩ := rfl
    simp [dispatch, hroute, runHandler, hid, hu]
  · rw [findOneById_append_left_none pre _ oid hnm, findOneById_cons, if_pos]
    rw [hmerge "_id", hb]
    simpa using findOneById_id_of_found (getColl db name) oid d hd

/-- C9 witness: merging a one-field body onto a two-field document at
concrete inputs. -/
theorem putById_field_merge_witness :
    (dispatch (some [("c", [[("_id", Value.str "656f0123456789abcdef0123"),
        ("a", Value.num 1), ("b", Value.str "x")]])]) "656f0123456789abcdef0199"
      ⟨.put, ["collections", "c", "656f0123456789abcdef0123"],
        [("a", Value.num 2)], none⟩ =
      (⟨200, .json [("msg", .str "success")]⟩,
       some (setColl [("c", [[("_id", Value.str "656f0123456789abcdef0123"),
         ("a", Value.num 1), ("b", Value.str "x")]])] "c"
         [[("_id", Value.str "656f0123456789abcdef0123"),
           ("a", Value.num 2), ("b", Value.str "x")]]))) ∧
    (findOneById [[("_id", Value.str "656f0123456789abcdef0123"),
        ("a", Value.num 2), ("b", Value.str "x")]] "656f0123456789abcdef0123" =
      some [("_id", Value.str "656f0123456789abcdef0123"),
        ("a", Value.num 2), ("b", Value.str "x")]) :=
  ⟨(putById_field_merge [("c", [[("_id", Value.str "656f0123456789abcdef0123"),
      ("a", Value.num 1), ("b", Value.str "x")]])] "656f0123456789abcdef0199"
      "c" "656f0123456789abcdef0123" "656f0123456789abcdef0123"
      [("a", Value.num 2)]
      [("_id", Value.str "656f0123456789abcdef0123"),
        ("a", Value.num 1), ("b", Value.str "x")]
      [[("_id", Value.str "656f0123456789abcdef0123"),
        ("a", Value.num 2), ("b", Value.str "x")]] 1
      (by decide) (by decide) (by decide) (by decide) (by rfl)).1,
   (putById_field_merge [("c", [[("_id", Value.str "656f0123456789abcdef0123"),
      ("a", Value.num 1), ("b", Value.str "x")]])] "656f0123456789abcdef0199"
      "c" "656f0123456789abcdef0123" "656f0123456789abcdef0123"
      [("a", Value.num 2)]
      [("_id", Value.str "656f0123456789abcdef0123"),
        ("a", Value.num 1), ("b", Value.str "x")]
      [[("_id", Value.str "656f0123456789abcdef0123"),
        ("a", Value.num 2), ("b", Value.str "x")]] 1
      (by decide) (by decide) (by decide) (by decide) (by rfl)).2.1⟩

/-- C10: inserting a document via POST /collections/name and fetching it by
the returned identifier yields a document equal to the inserted one
field-for-field, modulo the assigned identifier field. -/
theorem insert_then_get_roundtrip (db : Db) (name : String) (body : Doc)
    (fid fid2 : String)
    (hfid : parseObjectId fid = some fid)
    (hb : getField body "_id" = none)
    (hfresh : findOneById (getColl db name) fid = none) :
    (dispatch (some db) fid ⟨.post, ["collections", name], body, none⟩ =
      (⟨200, .json [("acknowledged", .bool true), ("insertedId", Value.str fid)]⟩,
       some (setColl db name (getColl db name ++ [body ++ [("_id", Value.str fid)]])))) ∧
    ((dispatch (some (setColl db name
        (getColl db name ++ [body ++ [("_id", Value.str fid)]]))) fid2
      ⟨.get, ["collections", name, fid], [], none⟩).1 =
      ⟨200, .json (body ++ [("_id", Value.str fid)])⟩) ∧
    (∀ f, f ≠ "_id" → getField (body ++ [("_id", Value.str fid)]) f = getField body f) := by
  have hroutePost : findRoute .post ["collections", name] =
      some ⟨.post, [.lit "collections", .pathParam "collectionName"], .insertColl⟩ := rfl
  have hrouteGet : findRoute .get ["collections", name, fid] =
      some ⟨.get, [.lit "collections", .pathParam "collectionName", .pathParam "id"],
        .getById⟩ := rfl
  refine ⟨?_, ?_, ?_⟩
  · simp [dispatch, hroutePost, runHandler, insertOne, hb]
  · have hcoll := getColl_setColl_self db name
      (getColl db name ++ [body ++ [("_id", Value.str fid)]])
    have hidnew : getField (body ++ [("_id", Value.str fid)]) "_id" =
        some (.str fid) := by
      rw [getField_append, hb, getField_singleton_self]
      rfl
    have hfind : findOneById (getColl db name ++ [body ++ [("_id", Value.str fid)]])
        fid = some (body ++ [("_id", Value.str fid)]) := by
      rw [findOneById_append, hfresh]
      simp [findOneById_cons, hidnew, findOneById]
    simp [dispatch, hrouteGet, runHandler, hfid, hcoll, hfind]
  · intro f hf
    rw [getField_append, getField_singleton_ne _ _ _ hf]
    cases getField body f <;> rfl

/-- C10 witness: the round trip at a concrete collection and body. -/
theorem insert_then_get_roundtrip_witness :
    (dispatch (some [("c", [])]) "656f0123456789abcdef0123"
      ⟨.post, ["collections", "c"],
        [("subject", Value.str "maths"), ("price", Value.num 20)], none⟩ =
      (⟨200, .json [("acknowledged", .bool true),
          ("insertedId", Value.str "656f0123456789abcdef0123")]⟩,
       some (setColl [("c", [])] "c"
         [[("subject", Value.str "maths"), ("price", Value.num 20),
           ("_id", Value.str "656f0123456789abcdef0123")]]))) ∧
    ((dispatch (some (setColl [("c", [])] "c"
        [[("subject", Value.str "maths"), ("price", Value.num 20),
          ("_id", Value.str "656f0123456789abcdef0123")]]))
        "656f0123456789abcdef0199"
      ⟨.get, ["collections", "c", "656f0123456789abcdef0123"], [], none⟩).1 =
      ⟨200, .json [("subject", Value.str "maths"), ("price", Value.num 20),
        ("_id", Value.str "656f0123456789abcdef0123")]⟩) :=
  ⟨(insert_then_get_roundtrip [("c", [])] "c"
      [("subject", Value.str "maths"), ("price", Value.num 20)]
      "656f0123456789abcdef0123" "656f0123456789abcdef0199"
      (by decide) (by decide) (by decide)).1,
   (insert_then_get_roundtrip [("c", [])] "c"
      [("subject", Value.str "maths"), ("price", Value.num 20)]
      "656f0123456789abcdef0123" "656f0123456789abcdef0199"
      (by decide) (by decide) (by decide)).2.1⟩

theorem evalCond_regex (d : Doc) (f : String) (q : String)
    (hq : metaFree q = true) :
    evalCond d (.regexMatch f (jsRegexOfString q)) = fieldSubstrCI d f q := by
  rw [jsRegex_of_metaFree q hq]
  simp only [evalCond, fieldSubstrCI]
  cases h : getField d f with
  | none => rfl
  | some v => cases v <;> simp [regexTest_map_ch]

theorem evalCond_numEq (d : Doc) (f : String) (v : Rat) :
    evalCond d (.numEq f v) = fieldNumEq d f v := rfl

theorem sortDocs_sorted (field : String) (dir : Int) (docs : List Doc) :
    List.Sorted (docLE field dir) (sortDocs field dir docs) :=
  List.sorted_insertionSort (docLE field dir) docs

/-- C5 counterexample: the query "20abc" does not parse as a number, yet the
handler's filter carries a numeric price condition for 20 (parseFloat reads
the numeric prefix) and matches a price-20 lesson the claim's filter rejects;
and the query "a.c" is used as a regex pattern, so it matches a subject "abc"
that does not contain "a.c" as a substring. -/
theorem search_filter_counterexample :
    ((matchesFilter (searchQuery "20abc")
        [("subject", Value.str "x"), ("price", Value.num 20)] = true) ∧
     (claimSearchMatches "20abc"
        [("subject", Value.str "x"), ("price", Value.num 20)] = false)) ∧
    ((matchesFilter (searchQuery "a.c") [("subject", Value.str "abc")] = true) ∧
     (claimSearchMatches "a.c" [("subject", Value.str "abc")] = false)) := by
  decide

/-- C5 amended: for every query free of regex metacharacters, the filter the
search handler sends matches a lesson exactly when q is empty, or q is a
case-insensitive substring of subject, description or location, or
parseFloat(q) is not NaN (a numeric prefix of q parses) and its value equals
price or availablespaces exactly; an empty q produces the empty filter and
all lessons are returned. -/
theorem search_filter_semantics (q : String) (d : Doc) (hq : metaFree q = true) :
    (matchesFilter (searchQuery q) d = true ↔
      (q = "" ∨
       fieldSubstrCI d "subject" q = true ∨
       fieldSubstrCI d "description" q = true ∨
       fieldSubstrCI d "location" q = true ∨
       (∃ v, jsParseFloat q = some v ∧
         (fieldNumEq d "price" v = true ∨ fieldNumEq d "availablespaces" v = true)))) ∧
    (searchQuery "" = []) ∧
    (∀ (db : Db) (fid : String),
      (dispatch (some db) fid ⟨.get, ["search"], [], some ""⟩).1 =
        ⟨200, .jsonArr (getColl db "lessons")⟩) := by
  refine ⟨?_, rfl, ?_⟩
  · by_cases hq0 : q = ""
    · subst hq0
      exact ⟨fun _ => Or.inl rfl, fun _ => rfl⟩
    · have h1 : searchQuery q =
          [Cond.regexMatch "subject" (jsRegexOfString q),
           Cond.regexMatch "description" (jsRegexOfString q),
           Cond.regexMatch "location" (jsRegexOfString q)] ++
          (match jsParseFloat q with
           | some v => [Cond.numEq "price" v, Cond.numEq "availablespaces" v]
           | none => []) := by
        simp [searchQuery, conditions, hq0]
      cases hpf : jsParseFloat q with
      | none =>
        simp [h1, hpf, matchesFilter, hq0,
          evalCond_regex d "subject" q hq, evalCond_regex d "description" q hq,
          evalCond_regex d "location" q hq]
      | some v =>
        simp [h1, hpf, matchesFilter, hq0,
          evalCond_regex d "subject" q hq, evalCond_regex d "description" q hq,
          evalCond_regex d "location" q hq, evalCond_numEq]
  · intro db fid
    have hroute : findRoute .get ["search"] = some ⟨.get, [.lit "search"], .search⟩ := rfl
    have hf : (getColl db "lessons").filter (matchesFilter (searchQuery "")) =
        getColl db "lessons" := List.filter_eq_self.mpr (fun _ _ => rfl)
    simp [dispatch, hroute, runHandler, hf]

/-- C5 witness for the amended theorem: a case-insensitive substring query
matches. -/
theorem search_filter_semantics_witness :
    matchesFilter (searchQuery "Ma") [("subject", Value.str "maths")] = true :=
  ((search_filter_semantics "Ma" [("subject", Value.str "maths")] (by decide)).1).mpr
    (Or.inr (Or.inl (by decide)))

/-- C6 counterexample: max equal to 0 is numeric, but the store treats limit
0 as "no limit", so a one-document collection yields one document — more
than max. -/
theorem sorted_limited_counterexample :
    (jsParseInt "0" = some 0) ∧
    ((dispatch (some [("x", [[("price", Value.num 1)]])]) "656f0123456789abcdef0127"
       ⟨.get, ["collections", "x", "0", "price", "asc"], [], none⟩).1 =
      ⟨200, .jsonArr [[("price", Value.num 1)]]⟩) ∧
    (([[("price", Value.num 1)]] : List Doc).length = 1) ∧
    ¬((1 : Nat) ≤ 0) := by
  decide

/-- C6 amended: for positive numeric max, GET /collections/name/max/field/dir
responds with an array of at most max documents (exactly min max size),
ordered by the sort field descending when dir is "desc" and ascending for
any other dir value; max 0 means no limit in the store. -/
theorem sorted_limited_list (db : Db) (fid name field maxS dirS : String)
    (m : Int) (hm : jsParseInt maxS = some m) (hpos : 0 < m) :
    ∃ ds, ((dispatch (some db) fid
        ⟨.get, ["collections", name, maxS, field, dirS], [], none⟩).1 =
        ⟨200, .jsonArr ds⟩) ∧
      ds.length = min m.toNat (getColl db name).length ∧
      ds.length ≤ m.toNat ∧
      List.Sorted (docLE field (if dirS == "desc" then -1 else 1)) ds := by
  have hroute : findRoute .get ["collections", name, maxS, field, dirS] =
      some ⟨.get, [.lit "collections", .pathParam "collectionName",
        .pathParam "max", .pathParam "sortAspect", .pathParam "sortAscDesc"],
        .sortedList⟩ := rfl
  have hm0 : ¬(m = 0) := by omega
  have hab : m.natAbs = m.toNat := by omega
  have hlen : (applyLimit m (sortDocs field (if dirS == "desc" then -1 else 1)
      (getColl db name))).length = min m.toNat (getColl db name).length := by
    simp [applyLimit, hm0, sortDocs, List.length_insertionSort, hab]
  refine ⟨applyLimit m (sortDocs field (if dirS == "desc" then -1 else 1)
      (getColl db name)), ?_, hlen, le_of_eq_of_le hlen (Nat.min_le_left _ _), ?_⟩
  · simp [dispatch, hroute, runHandler, hm]
  · rw [applyLimit, if_neg hm0]
    exact List.Pairwise.sublist (List.take_sublist _ _)
      (sortDocs_sorted field (if dirS == "desc" then -1 else 1) (getColl db name))

/-- C6 witness for the amended theorem: a five-document collection with
max 3 and dir desc. -/
theorem sorted_limited_list_witness :
    ∃ ds, ((dispatch (some [("x", [[("price", Value.num 5)],
        [("price", Value.num 2)], [("price", Value.num 4)],
        [("price", Value.num 1)], [("price", Value.num 3)]])])
        "656f0123456789abcdef0128"
        ⟨.get, ["collections", "x", "3", "price", "desc"], [], none⟩).1 =
        ⟨200, .jsonArr ds⟩) ∧
      ds.length = min (3 : Int).toNat
        (getColl [("x", [[("price", Value.num 5)],
          [("price", Value.num 2)], [("price", Value.num 4)],
          [("price", Value.num 1)], [("price", Value.num 3)]])] "x").length ∧
      ds.length ≤ (3 : Int).toNat ∧
      List.Sorted (docLE "price" (if "desc" == "desc" then -1 else 1)) ds :=
  sorted_limited_list [("x", [[("price", Value.num 5)],
      [("price", Value.num 2)], [("price", Value.num 4)],
      [("price", Value.num 1)], [("price", Value.num 3)]])]
    "656f0123456789abcdef0128" "x" "price" "3" "desc" 3 (by decide) (by decide)
